import Mathlib

/-!
Verification of the MaKo wiki-page converter (src/app.py) against its
natural-language specification.

The Python source is shallowly embedded: strings become `String` / `List Char`,
bytes become `List Nat` (each entry < 256), Python functions become Lean
functions of the same name, and the regex calls of the source are modelled by
dedicated matchers that implement exactly the leftmost / lazy / greedy
behaviour of the concrete patterns used in the source (verified against
CPython's `re` on the concrete inputs appearing below).  File-system effects
are made explicit: functions that write files return the list of (name, bytes)
writes they perform.
-/

namespace WikiPage

/-- Python's whitespace class (the ASCII part, which is all the inputs here
use): models both the regex class matched by a backslash-s and the default
character set of Python's str.strip. -/
def pyIsSpace (c : Char) : Bool :=
  c = ' ' || c = '\t' || c = '\n' || c = '\r' || c = '\x0b' || c = '\x0c'

/-- ASCII lowercasing, modelling Python str.lower on the ASCII inputs used. -/
def asciiLower (c : Char) : Char :=
  if 'A' ≤ c && c ≤ 'Z' then Char.ofNat (c.toNat + 32) else c

/-- Lowercase a whole character list. -/
def lowerAll (l : List Char) : List Char := l.map asciiLower

/-- Does `l` contain `sub` as a contiguous sub-list?  Models Python's
substring containment test (the `in` operator on str). -/
def hasSubstr (sub : List Char) : List Char → Bool
  | [] => sub.isEmpty
  | c :: rest => sub.isPrefixOf (c :: rest) || hasSubstr sub rest

/-- Index of the first occurrence of `sub` in `l`, if any.  Models
Python's str.find. -/
def findSub (sub : List Char) : List Char → Option Nat
  | [] => if sub.isEmpty then some 0 else none
  | c :: rest =>
    if sub.isPrefixOf (c :: rest) then some 0
    else (findSub sub rest).map (· + 1)

/-- Python str.strip: drop leading and trailing whitespace. -/
def pyStrip (l : List Char) : List Char :=
  (l.dropWhile pyIsSpace).rdropWhile pyIsSpace

/-- Models re.sub of one-or-more-whitespace with the empty string: since every
whitespace character sits in some maximal whitespace run, this is exactly
filtering out whitespace characters. -/
def removeWhitespace (l : List Char) : List Char :=
  l.filter (fun c => !pyIsSpace c)

/-- Helper for `collapseWhitespace`: `inRun` records whether the previous
character was part of a whitespace run already replaced by one space. -/
def collapseWsCore (inRun : Bool) : List Char → List Char
  | [] => []
  | c :: rest =>
    if pyIsSpace c then
      if inRun then collapseWsCore true rest
      else ' ' :: collapseWsCore true rest
    else
      c :: collapseWsCore false rest

/-- Models re.sub of one-or-more-whitespace with a single space: collapse
every maximal whitespace run to one space character. -/
def collapseWhitespace (l : List Char) : List Char :=
  collapseWsCore false l

/-- Core of Python str.split for a non-empty separator `a :: s`: scan left to
right, cut at each non-overlapping occurrence of the separator.  The fuel
argument makes the recursion structural, so the definition evaluates inside
the kernel; the scan consumes at least one character per step, so calling it
with the input's length as fuel computes the full split and the
fuel-exhausted arm is unreachable. -/
def pySplitFuel (a : Char) (s : List Char) : Nat → List Char → List Char → List (List Char)
  | _, [], acc => [acc]
  | 0, l, acc => [acc ++ l]
  | fuel + 1, c :: t, acc =>
    if (a :: s).isPrefixOf (c :: t) then
      acc :: pySplitFuel a s fuel (t.drop s.length) []
    else
      pySplitFuel a s fuel t (acc ++ [c])

/-- Python str.split(sep).  Python raises on an empty separator; the source
only ever calls it with a separator beginning with two dashes, so the empty
case is unreachable and modelled as the identity split. -/
def pySplit (sep : List Char) (l : List Char) : List (List Char) :=
  match sep with
  | [] => [l]
  | a :: s => pySplitFuel a s l.length l []

/-- Core of Python str.replace with length fuel (same device as the split):
replace every non-overlapping occurrence of the non-empty pattern `a :: s`
by `repl`, scanning left to right. -/
def pyReplaceFuel (a : Char) (s : List Char) (repl : List Char) :
    Nat → List Char → List Char
  | _, [] => []
  | 0, l => l
  | fuel + 1, c :: t =>
    if (a :: s).isPrefixOf (c :: t) then
      repl ++ pyReplaceFuel a s repl fuel (t.drop s.length)
    else
      c :: pyReplaceFuel a s repl fuel t

/-- Python str.replace(target, repl); the empty-target case (which Python
treats by interleaving) never occurs in the source and is modelled as the
identity. -/
def pyReplace (target repl l : List Char) : List Char :=
  match target with
  | [] => l
  | a :: s => pyReplaceFuel a s repl l.length l

/-! Base64, modelling Python's base64.b64encode / b64decode (the latter with
its default validate=False behaviour: characters outside the alphabet are
discarded before decoding, a quad ending in padding terminates the decode,
and a leftover of 1-3 characters is an Incorrect-padding error). -/

/-- Value of a standard-alphabet base64 character. -/
def charToB64 (c : Char) : Option Nat :=
  if 'A' ≤ c && c ≤ 'Z' then some (c.toNat - 65)
  else if 'a' ≤ c && c ≤ 'z' then some (c.toNat - 97 + 26)
  else if '0' ≤ c && c ≤ '9' then some (c.toNat - 48 + 52)
  else if c = '+' then some 62
  else if c = '/' then some 63
  else none

/-- Standard-alphabet base64 character of a 6-bit value. -/
def b64ValToChar (v : Nat) : Char :=
  if v < 26 then Char.ofNat (65 + v)
  else if v < 52 then Char.ofNat (97 + (v - 26))
  else if v < 62 then Char.ofNat (48 + (v - 52))
  else if v = 62 then '+'
  else '/'

/-- Python base64.b64encode on a byte list (entries < 256). -/
def b64encodeBytes : List Nat → List Char
  | [] => []
  | [b0] => [b64ValToChar (b0 / 4), b64ValToChar (b0 % 4 * 16), '=', '=']
  | [b0, b1] =>
    [b64ValToChar (b0 / 4), b64ValToChar (b0 % 4 * 16 + b1 / 16),
     b64ValToChar (b1 % 16 * 4), '=']
  | b0 :: b1 :: b2 :: rest =>
    b64ValToChar (b0 / 4) :: b64ValToChar (b0 % 4 * 16 + b1 / 16) ::
    b64ValToChar (b1 % 16 * 4 + b2 / 64) :: b64ValToChar (b2 % 64) ::
    b64encodeBytes rest

/-- Characters kept by b64decode's non-validating filter. -/
def isB64OrPad (c : Char) : Bool := (charToB64 c).isSome || c = '='

/-- Decode a filtered base64 character list, quad by quad.  A quad ending in
padding yields its bytes and terminates the decode (observed CPython
behaviour); a leftover of 1-3 characters is an error (none). -/
def b64decodeCore : List Char → Option (List Nat)
  | [] => some []
  | c0 :: c1 :: c2 :: c3 :: rest =>
    match charToB64 c0, charToB64 c1 with
    | some v0, some v1 =>
      if c2 = '=' then
        if c3 = '=' then some [v0 * 4 + v1 / 16] else none
      else
        match charToB64 c2 with
        | some v2 =>
          if c3 = '=' then some [v0 * 4 + v1 / 16, v1 % 16 * 16 + v2 / 4]
          else
            match charToB64 c3 with
            | some v3 =>
              (b64decodeCore rest).map
                (fun bs => (v0 * 4 + v1 / 16) :: (v1 % 16 * 16 + v2 / 4) ::
                           (v2 % 4 * 64 + v3) :: bs)
            | none => none
        | none => none
    | _, _ => none
  | _ => none

/-- Python base64.b64decode with validate=False. -/
def b64decode (l : List Char) : Option (List Nat) :=
  b64decodeCore (l.filter isB64OrPad)

/-- UTF-8 encoding of one Unicode scalar value. -/
def utf8EncodeChar (c : Char) : List Nat :=
  if c.toNat < 128 then [c.toNat]
  else if c.toNat < 2048 then [192 + c.toNat / 64, 128 + c.toNat % 64]
  else if c.toNat < 65536 then
    [224 + c.toNat / 4096, 128 + c.toNat / 64 % 64, 128 + c.toNat % 64]
  else
    [240 + c.toNat / 262144, 128 + c.toNat / 4096 % 64, 128 + c.toNat / 64 % 64,
     128 + c.toNat % 64]

/-- UTF-8 bytes of a character list. -/
def utf8BytesL (l : List Char) : List Nat := (l.map utf8EncodeChar).flatten

/-- UTF-8 bytes of a string (Python str.encode of utf-8). -/
def utf8Bytes (s : String) : List Nat := utf8BytesL s.data

/-- Little-endian 16-bit code units of a byte list; a trailing lone byte is
dropped (the errors-are-ignored decode). -/
def utf16UnitsLE : List Nat → List Nat
  | b0 :: b1 :: rest => (b0 + 256 * b1) :: utf16UnitsLE rest
  | _ => []

/-- Big-endian 16-bit code units of a byte list; trailing lone byte dropped. -/
def utf16UnitsBE : List Nat → List Nat
  | b0 :: b1 :: rest => (256 * b0 + b1) :: utf16UnitsBE rest
  | _ => []

/-- Characters of a UTF-16 code-unit list with errors ignored: surrogate
pairs are combined, lone surrogates are dropped. -/
def utf16CharsOfUnits : List Nat → List Char
  | [] => []
  | [u] => if 55296 ≤ u && u < 57344 then [] else [Char.ofNat u]
  | u :: u2 :: rest =>
    if 55296 ≤ u && u < 56320 then
      if 56320 ≤ u2 && u2 < 57344 then
        Char.ofNat (65536 + (u - 55296) * 1024 + (u2 - 56320)) ::
          utf16CharsOfUnits rest
      else utf16CharsOfUnits (u2 :: rest)
    else if 56320 ≤ u && u < 57344 then utf16CharsOfUnits (u2 :: rest)
    else Char.ofNat u :: utf16CharsOfUnits (u2 :: rest)

/-- Python bytes.decode of utf-16 with errors ignored: sniff a BOM, default
to little-endian without one (CPython uses the native order, little-endian
on the reference platform). -/
def utf16DecodeIgnore (bs : List Nat) : List Char :=
  match bs with
  | 255 :: 254 :: rest => utf16CharsOfUnits (utf16UnitsLE rest)
  | 254 :: 255 :: rest => utf16CharsOfUnits (utf16UnitsBE rest)
  | _ => utf16CharsOfUnits (utf16UnitsLE bs)

/-- Is a byte a UTF-8 continuation byte? -/
def isUtf8Cont (b : Nat) : Bool := 128 ≤ b && b < 192

/-- Python bytes.decode of utf-8 with errors ignored (invalid sequences
dropped).  Only the quoted-printable branch of the decoder uses this, and no
claim below exercises that branch. -/
def utf8DecodeIgnore : List Nat → List Char
  | [] => []
  | [b] => if b < 128 then [Char.ofNat b] else []
  | [b, b1] =>
    if b < 128 then Char.ofNat b :: utf8DecodeIgnore [b1]
    else if 194 ≤ b && b < 224 then
      if isUtf8Cont b1 then [Char.ofNat ((b - 192) * 64 + (b1 - 128))]
      else utf8DecodeIgnore [b1]
    else utf8DecodeIgnore [b1]
  | [b, b1, b2] =>
    if b < 128 then Char.ofNat b :: utf8DecodeIgnore [b1, b2]
    else if 194 ≤ b && b < 224 then
      if isUtf8Cont b1 then
        Char.ofNat ((b - 192) * 64 + (b1 - 128)) :: utf8DecodeIgnore [b2]
      else utf8DecodeIgnore [b1, b2]
    else if 224 ≤ b && b < 240 then
      if isUtf8Cont b1 && isUtf8Cont b2 then
        [Char.ofNat ((b - 224) * 4096 + (b1 - 128) * 64 + (b2 - 128))]
      else utf8DecodeIgnore [b1, b2]
    else utf8DecodeIgnore [b1, b2]
  | b :: b1 :: b2 :: b3 :: rest =>
    if b < 128 then Char.ofNat b :: utf8DecodeIgnore (b1 :: b2 :: b3 :: rest)
    else if 194 ≤ b && b < 224 then
      if isUtf8Cont b1 then
        Char.ofNat ((b - 192) * 64 + (b1 - 128)) ::
          utf8DecodeIgnore (b2 :: b3 :: rest)
      else utf8DecodeIgnore (b1 :: b2 :: b3 :: rest)
    else if 224 ≤ b && b < 240 then
      if isUtf8Cont b1 && isUtf8Cont b2 then
        Char.ofNat ((b - 224) * 4096 + (b1 - 128) * 64 + (b2 - 128)) ::
          utf8DecodeIgnore (b3 :: rest)
      else utf8DecodeIgnore (b1 :: b2 :: b3 :: rest)
    else if 240 ≤ b && b < 245 then
      if isUtf8Cont b1 && isUtf8Cont b2 && isUtf8Cont b3 then
        Char.ofNat ((b - 240) * 262144 + (b1 - 128) * 4096 +
                    (b2 - 128) * 64 + (b3 - 128)) :: utf8DecodeIgnore rest
      else utf8DecodeIgnore (b1 :: b2 :: b3 :: rest)
    else utf8DecodeIgnore (b1 :: b2 :: b3 :: rest)

/-- Value of a hex digit character (both cases), for quoted-printable. -/
def hexDigitVal (c : Char) : Option Nat :=
  if '0' ≤ c && c ≤ '9' then some (c.toNat - 48)
  else if 'A' ≤ c && c ≤ 'F' then some (c.toNat - 55)
  else if 'a' ≤ c && c ≤ 'f' then some (c.toNat - 87)
  else none

/-- Python quopri.decodestring on bytes: an equals sign followed by two hex
digits is a byte, an equals sign before a line break is a soft break, any
other equals sign passes through.  Dead code for the claims below (no claim
exercises the quoted-printable branch). -/
def qpDecodeBytes : List Nat → List Nat
  | [] => []
  | [b] => if b = 61 then [61] else [b]
  | [b, b1] =>
    if b = 61 then
      if b1 = 10 then [] else if b1 = 13 then [] else 61 :: qpDecodeBytes [b1]
    else b :: qpDecodeBytes [b1]
  | b :: b1 :: b2 :: rest =>
    if b = 61 then
      match hexDigitVal (Char.ofNat b1), hexDigitVal (Char.ofNat b2) with
      | some h1, some h2 => (h1 * 16 + h2) :: qpDecodeBytes rest
      | _, _ =>
        if b1 = 10 then qpDecodeBytes (b2 :: rest)
        else if b1 = 13 && b2 = 10 then qpDecodeBytes rest
        else 61 :: qpDecodeBytes (b1 :: b2 :: rest)
    else b :: qpDecodeBytes (b1 :: b2 :: rest)

/-! Matchers for the concrete regular expressions used by the source.  Each
implements exactly the leftmost / lazy / greedy behaviour of CPython's re for
the one pattern it models (checked against CPython on the inputs below). -/

/-- Case-insensitive literal test: does `l` start with `lit` (given in
lowercase) up to ASCII case? -/
def ciLitAt (lit l : List Char) : Bool :=
  lit.isPrefixOf (lowerAll (l.take lit.length))

/-- Hex-digit class of the two Content-Location patterns. -/
def isHexDigitChar (c : Char) : Bool :=
  ('0' ≤ c && c ≤ '9') || ('a' ≤ c && c ≤ 'f') || ('A' ≤ c && c ≤ 'F')

/-- Capture of the lazy group in the boundary pattern: the characters up to
the first closing double quote.  The dot of the lazy group does not match a
newline, so reaching a newline (or the end) before a quote fails. -/
def takeUntilQuote : List Char → Option (List Char)
  | [] => none
  | c :: rest =>
    if c = '"' then some []
    else if c = '\n' then none
    else (takeUntilQuote rest).map (c :: ·)

/-- Models re.search of the boundary declaration pattern: the leftmost
occurrence of the literal followed by a lazily captured token closed by a
double quote on the same line; occurrences with no closing quote before the
next newline are skipped (the search restarts further right). -/
def findBoundary : List Char → Option (List Char)
  | [] => none
  | c :: rest =>
    if ("boundary=\"".data).isPrefixOf (c :: rest) then
      match takeUntilQuote (rest.drop 9) with
      | some tok => some tok
      | none => findBoundary rest
    else findBoundary rest

/-- The extension alternation of the new-style Content-Location pattern, in
the source's order (png, jpg, jpeg, gif), case-insensitively; returns the
matched length including the dot. -/
def imageExtAt : List Char → Option Nat
  | '.' :: r =>
    if ciLitAt "png".data r then some 4
    else if ciLitAt "jpg".data r then some 4
    else if ciLitAt "jpeg".data r then some 5
    else if ciLitAt "gif".data r then some 4
    else none
  | _ => none

/-- Lazy expansion of the captured group of the new-style pattern: consume as
few characters as possible (never a newline, the pattern has no DOTALL flag)
until a dot-extension suffix matches; the capture is everything consumed plus
that suffix. -/
def lazyCapture1 (acc : List Char) : List Char → Option (List Char)
  | [] => none
  | c :: rest =>
    match imageExtAt (c :: rest) with
    | some n => some (acc ++ (c :: rest).take n)
    | none =>
      if c = '\n' then none else lazyCapture1 (acc ++ [c]) rest

/-- Attempt the new-style pattern at one position: the case-insensitive
literal, a maximal hex run (no backtracking can help: the run's characters
are hex, so the following slash can only sit at its end), a slash, then the
lazily captured path. -/
def pattern1At (l : List Char) : Option (List Char) :=
  if ciLitAt "content-location: file:///c:/".data l then
    let l1 := l.drop 29
    let run := l1.takeWhile isHexDigitChar
    if run.isEmpty then none
    else
      match l1.drop run.length with
      | '/' :: m => lazyCapture1 [] m
      | _ => none
  else none

/-- Models re.search of the new-style (full-path) Content-Location pattern:
leftmost position where the whole pattern matches. -/
def pattern1Search : List Char → Option (List Char)
  | [] => none
  | c :: rest =>
    match pattern1At (c :: rest) with
    | some g => some g
    | none => pattern1Search rest

/-- Attempt the old-style (bare hash) pattern at one position.  The pattern
ends in a dollar anchor and has no MULTILINE flag, so after the maximal hex
run the rest of the whole string must be empty or a single final newline. -/
def pattern2At (l : List Char) : Option (List Char) :=
  if ("Content-Location: file:///C:/".data).isPrefixOf l then
    let l1 := l.drop 29
    let run := l1.takeWhile isHexDigitChar
    if run.isEmpty then none
    else
      match l1.drop run.length with
      | [] => some run
      | ['\n'] => some run
      | _ => none
  else none

/-- Models re.search of the old-style Content-Location pattern. -/
def pattern2Search : List Char → Option (List Char)
  | [] => none
  | c :: rest =>
    match pattern2At (c :: rest) with
    | some g => some g
    | none => pattern2Search rest

/-- Character class of the fallback boundary pattern. -/
def fallbackClassChar (c : Char) : Bool :=
  ('A' ≤ c && c ≤ 'F') || ('0' ≤ c && c ≤ '9') || c = '.' || c = '_'

/-- Tail of the fallback pattern after the captured alternation: an
underscore then a non-empty greedy class run.  Returns the capture and the
rest of the input after the whole match. -/
def fallbackTail (g : List Char) (l2 : List Char) : Option (List Char × List Char) :=
  match l2 with
  | [] => none
  | c :: l3 =>
    if c = '_' then
      if (l3.takeWhile fallbackClassChar).isEmpty then none
      else some (g, l3.drop (l3.takeWhile fallbackClassChar).length)
    else none

/-- Attempt the fallback boundary-marker pattern at one position, returning
the captured group and the rest of the input after the match.  The
alternation tries Part before NextPart; the two cannot both match at one
position. -/
def fallbackGroupAt (l : List Char) : Option (List Char × List Char) :=
  if ("------=_".data).isPrefixOf l then
    if ("Part".data).isPrefixOf (l.drop 8) then
      fallbackTail "Part".data (l.drop 12)
    else if ("NextPart".data).isPrefixOf (l.drop 8) then
      fallbackTail "NextPart".data (l.drop 16)
    else none
  else none

theorem fallbackTail_length_le {g l2 g2 rem : List Char}
    (h : fallbackTail g l2 = some (g2, rem)) : rem.length + 1 ≤ l2.length := by
  cases l2 with
  | nil => simp [fallbackTail] at h
  | cons c l3 =>
    simp only [fallbackTail] at h
    split at h
    · split at h
      · simp at h
      · simp only [Option.some.injEq, Prod.mk.injEq] at h
        obtain ⟨-, hrem⟩ := h
        subst hrem
        simp only [List.length_cons, List.length_drop]
        omega
    · simp at h

theorem fallbackGroupAt_length_lt {l g rem : List Char}
    (h : fallbackGroupAt l = some (g, rem)) : rem.length < l.length := by
  unfold fallbackGroupAt at h
  split at h
  case isTrue hpre =>
    have hpre' : ("------=_".data) <+: l := by
      exact List.isPrefixOf_iff_prefix.mp hpre
    have hlen : 8 ≤ l.length := by
      have := hpre'.length_le
      simpa using this
    split at h
    case isTrue hp =>
      have := fallbackTail_length_le h
      simp only [List.length_drop] at this
      omega
    case isFalse hp =>
      split at h
      case isTrue hnp =>
        have := fallbackTail_length_le h
        simp only [List.length_drop] at this
        omega
      case isFalse hnp => simp at h
  case isFalse => simp at h

/-- Models re.split with the fallback boundary pattern: the captured group of
each match is inserted between the chunks, as CPython's re.split does for
patterns with capture groups. -/
def splitFallbackCore : List Char → List Char → List (List Char)
  | [], acc => [acc]
  | c :: t, acc =>
    match h : fallbackGroupAt (c :: t) with
    | some (g, rem) => acc :: g :: splitFallbackCore rem []
    | none => splitFallbackCore t (acc ++ [c])
termination_by l _ => l.length
decreasing_by
  · exact fallbackGroupAt_length_lt h
  · simp

/-- Fallback split of the whole text. -/
def splitFallback (l : List Char) : List (List Char) := splitFallbackCore l []

/-- Does the fallback boundary pattern match anywhere in the text? -/
def hasFallbackMatch : List Char → Bool
  | [] => false
  | c :: rest => (fallbackGroupAt (c :: rest)).isSome || hasFallbackMatch rest

/-- Attempt the tag pattern (an angle bracket, one or more non-closing
characters, a closing angle bracket) at one position; returns the rest after
the tag. -/
def stripTagsAt (l : List Char) : Option (List Char) :=
  match l with
  | '<' :: r =>
    if (r.takeWhile (· ≠ '>')).isEmpty then none
    else
      match r.drop (r.takeWhile (· ≠ '>')).length with
      | '>' :: rest => some rest
      | _ => none
  | _ => none

/-- Models re.sub removing every match of the tag pattern (leftmost,
non-overlapping), with length fuel for structural recursion: each step
consumes at least one character, so the input's length as fuel computes the
full substitution. -/
def stripTagsFuel : Nat → List Char → List Char
  | _, [] => []
  | 0, l => l
  | fuel + 1, c :: t =>
    match stripTagsAt (c :: t) with
    | some rest => stripTagsFuel fuel rest
    | none => c :: stripTagsFuel fuel t

/-- The tag-stripping substitution over a whole text. -/
def stripTags (l : List Char) : List Char := stripTagsFuel l.length l

/-- Does the terminator alternation of the navigation pattern match at this
suffix of the text?  The dollar alternative matches at the end of the string
or just before a single final newline. -/
def navTermAt (l : List Char) : Bool :=
  ("\n\n".data).isPrefixOf l || ("\r\n\r\n".data).isPrefixOf l ||
    l.isEmpty || l = ['\n']

/-- Lazy expansion of the navigation capture (DOTALL, so newlines are
consumed): the shortest non-empty run after which the terminator matches. -/
def navCapture (acc : List Char) : List Char → Option (List Char)
  | [] => if !acc.isEmpty && navTermAt [] then some acc else none
  | c :: rest =>
    if !acc.isEmpty && navTermAt (c :: rest) then some acc
    else navCapture (acc ++ [c]) rest

/-- Attempt the navigation pattern at one position: the case-insensitive
literal, a greedy whitespace run, then the lazy capture.  When everything
after the literal is whitespace the greedy run backtracks by one character so
the capture can be non-empty (CPython behaviour). -/
def navMatchAt (l : List Char) : Option (List Char) :=
  if ciLitAt "navigation:".data l then
    if ((l.drop 11).drop ((l.drop 11).takeWhile pyIsSpace).length).isEmpty then
      match ((l.drop 11).takeWhile pyIsSpace).getLast? with
      | some c => some [c]
      | none => none
    else navCapture [] ((l.drop 11).drop ((l.drop 11).takeWhile pyIsSpace).length)
  else none

/-- Models re.search of the navigation pattern on the plain text. -/
def navSearchPlain : List Char → Option (List Char)
  | [] => none
  | c :: rest =>
    match navMatchAt (c :: rest) with
    | some g => some g
    | none => navSearchPlain rest

/-- Models Python html.unescape for the entity forms that can occur in a
breadcrumb (the greater-than, less-than, ampersand, quote and apostrophe
entities); all other text passes through unchanged.  No concrete input below
contains an ampersand, so the unmodelled entities are unreachable. -/
def htmlUnescapeFuel : Nat → List Char → List Char
  | _, [] => []
  | 0, l => l
  | fuel + 1, c :: t =>
    if c = '&' then
      if ("gt;".data).isPrefixOf t then '>' :: htmlUnescapeFuel fuel (t.drop 3)
      else if ("lt;".data).isPrefixOf t then '<' :: htmlUnescapeFuel fuel (t.drop 3)
      else if ("amp;".data).isPrefixOf t then '&' :: htmlUnescapeFuel fuel (t.drop 4)
      else if ("quot;".data).isPrefixOf t then '"' :: htmlUnescapeFuel fuel (t.drop 5)
      else if ("#39;".data).isPrefixOf t then
        Char.ofNat 39 :: htmlUnescapeFuel fuel (t.drop 4)
      else c :: htmlUnescapeFuel fuel t
    else c :: htmlUnescapeFuel fuel t

/-- The entity unescape over a whole text (length fuel, same device as the
other scanners). -/
def htmlUnescape (l : List Char) : List Char := htmlUnescapeFuel l.length l

/-! A generic engine for the source's four paragraph-removal patterns, all of
the shape: opening piece, lazy dot-star (DOTALL), phrase, lazy dot-star
(DOTALL), closing piece.  Each piece is a matcher that returns the length it
consumes at a position.  Because both dot-stars may extend to the end of the
text, the leftmost-then-lazy match is: least start where the opening piece
matches and a phrase occurrence followed (anywhere later) by a closing piece
exists; within it the first phrase occurrence and then the first closing
occurrence. -/

/-- Least offset (and consumed length) at which a matcher succeeds. -/
def findFrom (p : List Char → Option Nat) : List Char → Option (Nat × Nat)
  | [] => (p []).map (fun n => (0, n))
  | c :: rest =>
    match p (c :: rest) with
    | some n => some (0, n)
    | none => (findFrom p rest).map (fun q => (q.1 + 1, q.2))

/-- Total length of the span pattern's match at one position, if any. -/
def spanMatchAt (openAt phraseAt closeAt : List Char → Option Nat)
    (l : List Char) : Option Nat :=
  match openAt l with
  | some no =>
    match findFrom phraseAt (l.drop no) with
    | some (j, np) =>
      match findFrom closeAt (l.drop (no + j + np)) with
      | some (k, nc) => some (no + j + np + k + nc)
      | none => none
    | none => none
  | none => none

/-- Models re.sub with empty replacement for a span pattern: remove each
leftmost match and continue after it (length fuel for structural
recursion).  The opening matchers used below all consume at least one
character, so the zero-length guard is unreachable. -/
def spanSubFuel (openAt phraseAt closeAt : List Char → Option Nat) :
    Nat → List Char → List Char
  | _, [] => []
  | 0, l => l
  | fuel + 1, c :: t =>
    match spanMatchAt openAt phraseAt closeAt (c :: t) with
    | some n =>
      if n = 0 then c :: spanSubFuel openAt phraseAt closeAt fuel t
      else spanSubFuel openAt phraseAt closeAt fuel ((c :: t).drop n)
    | none => c :: spanSubFuel openAt phraseAt closeAt fuel t

/-- The span substitution over a whole text. -/
def spanSub (openAt phraseAt closeAt : List Char → Option Nat)
    (l : List Char) : List Char :=
  spanSubFuel openAt phraseAt closeAt l.length l

/-- Matcher for a literal piece. -/
def litMatcher (lit : List Char) (l : List Char) : Option Nat :=
  if lit.isPrefixOf l then some lit.length else none

/-- Matcher for a case-insensitive literal piece (the literal given in
lowercase). -/
def ciLitMatcher (lit : List Char) (l : List Char) : Option Nat :=
  if ciLitAt lit l then some lit.length else none

/-- Matcher for the page-owner phrase: a case-class initial letter, the
literal age-and-space, a case-class letter O, then the alternation of wner
and ner (so the regex also accepts the misspelling Oner); everything else in
the phrase is case-sensitive lowercase, exactly as in the source pattern. -/
def pageOwnerAt (l : List Char) : Option Nat :=
  match l with
  | [] => none
  | c1 :: rest =>
    if (c1 = 'P' || c1 = 'p') && ("age ".data).isPrefixOf rest then
      match rest.drop 4 with
      | [] => none
      | c2 :: r2 =>
        if c2 = 'O' || c2 = 'o' then
          if ("wner".data).isPrefixOf r2 then some 10
          else if ("ner".data).isPrefixOf r2 then some 9
          else none
        else none
    else none

/-- Matcher for the page-contact phrase, with the same case behaviour. -/
def pageContactAt (l : List Char) : Option Nat :=
  match l with
  | [] => none
  | c1 :: rest =>
    if (c1 = 'P' || c1 = 'p') && ("age ".data).isPrefixOf rest then
      match rest.drop 4 with
      | [] => none
      | c2 :: r2 =>
        if (c2 = 'C' || c2 = 'c') && ("ontact".data).isPrefixOf r2 then some 12
        else none
    else none

/-- Matcher for an opening tag with optional attributes: the bracket and tag
name case-insensitively, a greedy run of non-closing characters, then the
closing bracket (which can only sit at the end of the maximal run). -/
def tagOpenAt (name : List Char) (l : List Char) : Option Nat :=
  if ciLitAt ('<' :: name) l then
    match (l.drop (1 + name.length)).drop
        ((l.drop (1 + name.length)).takeWhile (· ≠ '>')).length with
    | '>' :: _ =>
      some (1 + name.length +
        ((l.drop (1 + name.length)).takeWhile (· ≠ '>')).length + 1)
    | _ => none
  else none

/-! The source functions of src/app.py, in source order. -/

/-- Models decode_html_content (src/app.py lines 62-97).  In the base64
branch the source first tries a UTF-16 decode with errors ignored and falls
back to UTF-8 on UnicodeDecodeError, but an errors-ignored decode never
raises, so the UTF-8 fallback is unreachable and the branch is exactly the
UTF-16 errors-ignored decode; a base64 decode error returns the input
unchanged. -/
def decode_html_content (encoded_html : String) (encoding_type : String) : String :=
  if encoding_type = "base64" then
    match b64decode (removeWhitespace encoded_html.data) with
    | some bytes => String.mk (utf16DecodeIgnore bytes)
    | none => encoded_html
  else if encoding_type = "quoted-printable" then
    String.mk (utf8DecodeIgnore (qpDecodeBytes (utf8BytesL encoded_html.data)))
  else encoded_html

/-- Models extract_base64_image (lines 134-157): everything after the first
blank line, stripped and with whitespace removed, is base64-decoded; a decode
error yields no asset. -/
def extract_base64_image (part : String) (image_key : String) :
    Option (String × List Nat) :=
  match findSub "\n\n".data part.data with
  | none => none
  | some i =>
    match b64decode (removeWhitespace (pyStrip (part.data.drop (i + 2)))) with
    | some bytes => some (image_key, bytes)
    | none => none

/-- Models extract_image_from_part (lines 100-131): requires the base64
transfer-encoding header substring, then tries the new-style full-path
Content-Location pattern and the old-style bare-hash pattern in turn. -/
def extract_image_from_part (part : String) : Option (String × List Nat) :=
  if !hasSubstr "Content-Transfer-Encoding: base64".data part.data then none
  else
    match pattern1Search part.data with
    | some key => extract_base64_image part (String.mk key)
    | none =>
      match pattern2Search part.data with
      | some key => extract_base64_image part (String.mk key)
      | none => none

/-- Models os.path.basename on the reference (POSIX) platform: the substring
after the last slash. -/
def osBasename (l : List Char) : List Char :=
  (pySplit ['/'] l).getLastD l

/-- Models determine_image_filename (lines 160-186). -/
def determine_image_filename (image_key : String) (image_data : List Nat) :
    String :=
  if hasSubstr ['/'] image_key.data || hasSubstr ['\\'] image_key.data then
    String.mk (osBasename image_key.data)
  else
    let ext :=
      if ([137, 80, 78, 71] : List Nat).isPrefixOf image_data then "png"
      else if ([255, 216, 255] : List Nat).isPrefixOf image_data then "jpg"
      else if ([71, 73, 70] : List Nat).isPrefixOf image_data then "gif"
      else "png"
    image_key ++ "." ++ ext

/-- Models save_images_and_update_html (lines 189-232) with the file system
made explicit: returns the updated html, the saved count, and the list of
(filename, bytes) writes in the order they are performed. -/
def save_images_and_update_html (html_content : String)
    (images : List (String × List Nat)) :
    String × Nat × List (String × List Nat) :=
  images.foldl
    (fun st kv =>
      let filename := determine_image_filename kv.1 kv.2
      let html1 := String.mk (pyReplace ("src=\"" ++ kv.1 ++ "\"").data
        ("src=\"images/" ++ filename ++ "\"").data st.1.data)
      let html2 :=
        if hasSubstr ['/'] kv.1.data then
          String.mk (pyReplace ("src=\"" ++ filename ++ "\"").data
            ("src=\"images/" ++ filename ++ "\"").data html1.data)
        else html1
      (html2, st.2.1 + 1, st.2.2 ++ [(filename, kv.2)]))
    (html_content, 0, [])

/-- Models remove_confluence_metadata (lines 235-258): two sequential
re.sub calls with empty replacement, owner first, then contact. -/
def remove_confluence_metadata (html_content : String) : String :=
  String.mk (spanSub (litMatcher "<p>".data) pageContactAt
    (litMatcher "</p>".data)
    (spanSub (litMatcher "<p>".data) pageOwnerAt
      (litMatcher "</p>".data) html_content.data))

/-- Models the private MIME splitter (lines 317-334): a declared boundary
splits on the literal two-dashes-plus-token string; otherwise the fallback
pattern is used via re.split, whose capture group leaks into the result. -/
def split_mime_parts (text : String) : List String :=
  match findBoundary text.data with
  | some b => (pySplit ('-' :: '-' :: b) text.data).map String.mk
  | none => (splitFallback text.data).map String.mk

/-- Models the private html part extractor (lines 337-360). -/
def extract_html_from_part (part : String) : Option String :=
  match findSub "\n\n".data part.data with
  | none => none
  | some i =>
    if hasSubstr "Content-Transfer-Encoding: base64".data part.data then
      some (decode_html_content (String.mk (pyStrip (part.data.drop (i + 2)))) "base64")
    else if hasSubstr "Content-Transfer-Encoding: quoted-printable".data part.data then
      some (decode_html_content (String.mk (pyStrip (part.data.drop (i + 2)))) "quoted-printable")
    else some (String.mk (pyStrip (part.data.drop (i + 2))))

/-- Python-dict insertion for the images mapping: last write wins on a key
collision, insertion order is preserved. -/
def dictInsert (k : String) (v : List Nat) (d : List (String × List Nat)) :
    List (String × List Nat) :=
  if d.any (fun p => p.1 == k) then
    d.map (fun p => if p.1 == k then (k, v) else p)
  else d ++ [(k, v)]

/-- One iteration of the part-processing loop of extract_html_and_images
(lines 287-297): a part carrying the text/html content type feeds the html
slot while that slot is still empty (even a failed capture keeps it empty);
every other part is offered to the image extractor. -/
def processStep (st : Option String × List (String × List Nat))
    (part : String) : Option String × List (String × List Nat) :=
  if hasSubstr "Content-Type: text/html".data part.data && st.1.isNone then
    (extract_html_from_part part, st.2)
  else
    match extract_image_from_part part with
    | some kv => (st.1, dictInsert kv.1 kv.2 st.2)
    | none => st

/-- The part-processing loop of extract_html_and_images (lines 287-297). -/
def processParts (parts : List String) :
    Option String × List (String × List Nat) :=
  parts.foldl processStep (none, [])

/-- Result of extract_html_and_images with the image writes made explicit. -/
structure ExtractResult where
  success : Bool
  result : String
  numImages : Nat
  filesWritten : List (String × List Nat)
deriving Repr, DecidableEq

/-- Models extract_html_and_images (lines 260-314).  The validity check
fails when no html was captured or the captured text is empty or lacks the
html tag (case-insensitively); images are saved only after that check, so a
failure writes nothing. -/
def extract_html_and_images (text : String) : ExtractResult :=
  match processParts (split_mime_parts text) with
  | (none, _) => ⟨false, "Could not extract valid HTML content", 0, []⟩
  | (some html, images) =>
    if html = "" || !hasSubstr "<html".data (lowerAll html.data) then
      ⟨false, "Could not extract valid HTML content", 0, []⟩
    else
      match save_images_and_update_html html images with
      | (html1, n, files) =>
        ⟨true, remove_confluence_metadata html1, n, files⟩

/-- Models extract_navigation_from_html (lines 362-392): strip all markup,
search the navigation pattern, then strip, entity-unescape and
whitespace-collapse the captured text. -/
def extract_navigation_from_html (html_content : String) : Option String :=
  match navSearchPlain (stripTags html_content.data) with
  | some g => some (String.mk (collapseWhitespace (htmlUnescape (pyStrip g))))
  | none => none

/-- Models remove_navigation_from_html (lines 395-421): remove paragraph
containers then div containers mentioning the navigation marker. -/
def remove_navigation_from_html (html_content : String) : String :=
  String.mk (spanSub (tagOpenAt "div".data) (ciLitMatcher "navigation:".data)
    (ciLitMatcher "</div>".data)
    (spanSub (tagOpenAt "p".data) (ciLitMatcher "navigation:".data)
      (ciLitMatcher "</p>".data) html_content.data))

/-- Models parse_navigation_path (lines 424-435): split on the separator and
strip each segment. -/
def parse_navigation_path (nav_path : String) : List String :=
  ((pySplit ['>'] nav_path.data).map pyStrip).map String.mk

/-- Models generate_html_filename (lines 438-452): remove spaces from each
segment, join with underscores, append the extension. -/
def generate_html_filename (navigation_parts : List String) : String :=
  String.intercalate "_"
    (navigation_parts.map (fun part => String.mk (pyReplace [' '] [] part.data)))
    ++ ".html"

/-- The error message of the navigation-missing branch of upload_file. -/
def navigationErrorMessage : String :=
  "No navigation found in document. Please add a navigation line like: <p>Navigation: Category > Subcategory > Document Title</p>"

/-- Outcome of the conversion part of upload_file, with every write made
explicit: image files written (by extract_html_and_images), the html file
written, and the metadata entry added. -/
structure UploadOutcome where
  ok : Bool
  error : Option String
  imagesWritten : List (String × List Nat)
  htmlWritten : Option (String × String)
  metadataWritten : Option (String × List String × String)
deriving Repr, DecidableEq

/-- Models the conversion path of upload_file (lines 540-590), from the call
to extract_html_and_images onward (upload staging and HTTP plumbing are the
caller's concern).  The Python falsiness test on the breadcrumb rejects both
a missing and an empty navigation string. -/
def upload_file (text : String) : UploadOutcome :=
  let er := extract_html_and_images text
  if er.success then
    match extract_navigation_from_html er.result with
    | none => ⟨false, some navigationErrorMessage, er.filesWritten, none, none⟩
    | some nav =>
      if nav = "" then
        ⟨false, some navigationErrorMessage, er.filesWritten, none, none⟩
      else
        let nav_parts := parse_navigation_path nav
        let html_filename := generate_html_filename nav_parts
        ⟨true, none, er.filesWritten,
          some (html_filename, remove_navigation_from_html er.result),
          some (html_filename, nav_parts, nav)⟩
  else ⟨false, some er.result, er.filesWritten, none, none⟩

/-! Specification-side definitions, written from the claim's words, to be
compared with the source-side definitions above. -/

/-- The base64 encoding of the UTF-8 bytes of a text, as used by the
round-trip property of the spec. -/
def encode_base64 (x : String) : String := String.mk (b64encodeBytes (utf8Bytes x))

/-- Extension by magic-byte sniffing exactly as the spec lists it: a PNG
signature prefix gives png, the JPEG marker prefix gives jpg, the GIF prefix
gives gif, anything else defaults to png. -/
def spec_sniff_ext (image_data : List Nat) : String :=
  if ([137, 80, 78, 71] : List Nat).isPrefixOf image_data then "png"
  else if ([255, 216, 255] : List Nat).isPrefixOf image_data then "jpg"
  else if ([71, 73, 70] : List Nat).isPrefixOf image_data then "gif"
  else "png"

/-- The spec's filename rule: a key with no path separator gets the sniffed
extension appended; a key carrying a separator keeps its final (slash-
delimited, the platform's separator) path component verbatim. -/
def spec_image_filename (image_key : String) (image_data : List Nat) : String :=
  if hasSubstr ['/'] image_key.data || hasSubstr ['\\'] image_key.data then
    String.mk (osBasename image_key.data)
  else
    image_key ++ "." ++ spec_sniff_ext image_data

/-- The spec's filename derivation: remove all space characters from each
segment, join with underscores, append the html extension. -/
def spec_derive_filename (parts : List String) : String :=
  String.intercalate "_"
    (parts.map (fun p => String.mk (p.data.filter (fun c => c != ' '))))
    ++ ".html"

/-- Does an optionally captured html text actually carry an html tag
(case-insensitively)?  Used to state the no-html-part hypothesis. -/
def htmlBearing (o : Option String) : Bool :=
  match o with
  | none => false
  | some s => hasSubstr "<html".data (lowerAll s.data)

/-! Helper lemmas. -/

theorem isPrefixOf_nil_false {sub : List Char} (h : sub ≠ []) :
    sub.isPrefixOf ([] : List Char) = false := by
  cases sub with
  | nil => exact absurd rfl h
  | cons a s => rfl

theorem isPrefixOf_append_right {sub x y : List Char}
    (h : sub.isPrefixOf x = true) : sub.isPrefixOf (x ++ y) = true := by
  rw [ List.isPrefixOf_iff_prefix] at h ⊢
  exact h.trans (List.prefix_append x y)

theorem hasSubstr_iff_drop {sub : List Char} (hne : sub ≠ []) (l : List Char) :
    hasSubstr sub l = true ↔ ∃ i, sub.isPrefixOf (l.drop i) = true := by
  induction l with
  | nil =>
    simp only [hasSubstr, List.isEmpty_iff, List.drop_nil]
    simp [hne, isPrefixOf_nil_false hne]
  | cons c rest ih =>
    simp only [hasSubstr, Bool.or_eq_true]
    constructor
    · rintro (h | h)
      · exact ⟨0, h⟩
      · obtain ⟨i, hi⟩ := ih.mp h
        exact ⟨i + 1, by simpa using hi⟩
    · rintro ⟨i, hi⟩
      cases i with
      | zero => exact Or.inl (by simpa using hi)
      | succ j => exact Or.inr (ih.mpr ⟨j, by simpa using hi⟩)

/-- A piece already scanned never has the separator as a prefix of any of
its non-empty suffixes extended by the remaining text; such a piece cannot
contain the separator once the remaining text is appended or dropped. -/
theorem piece_no_substr {a : Char} {s p l : List Char}
    (hinv : ∀ i, i < p.length → (a :: s).isPrefixOf (p.drop i ++ l) = false) :
    hasSubstr (a :: s) p = false := by
  by_contra hcon
  rw [Bool.not_eq_false, hasSubstr_iff_drop (by simp) p] at hcon
  obtain ⟨i, hi⟩ := hcon
  by_cases hil : i < p.length
  · have h1 := hinv i hil
    have h2 := isPrefixOf_append_right (y := l) hi
    exact absurd h2 (by simp [h1])
  · rw [List.drop_eq_nil_of_le (by omega)] at hi
    exact absurd hi (by simp [isPrefixOf_nil_false])

/-- Pieces produced by the split scanner never contain the separator: the
scanner only adds a character to the current piece after checking that the
separator is not a prefix of the text from that character on, and any
occurrence of the separator inside a piece would be such a prefix.  The
fuel must cover the text, which it does at the call site. -/
theorem pySplitFuel_pieces (a : Char) (s : List Char) :
    ∀ (fuel : Nat) (l acc : List Char), l.length ≤ fuel →
      (∀ i, i < acc.length → (a :: s).isPrefixOf (acc.drop i ++ l) = false) →
      ∀ p ∈ pySplitFuel a s fuel l acc, hasSubstr (a :: s) p = false := by
  intro fuel
  induction fuel with
  | zero =>
    intro l acc hlen hinv p hp
    have hl : l = [] := List.length_eq_zero.mp (by omega)
    subst hl
    simp only [pySplitFuel, List.mem_singleton] at hp
    subst hp
    exact piece_no_substr (l := []) (by simpa using hinv)
  | succ fuel ih =>
    intro l acc hlen hinv p hp
    cases l with
    | nil =>
      simp only [pySplitFuel, List.mem_singleton] at hp
      subst hp
      exact piece_no_substr (l := []) (by simpa using hinv)
    | cons c t =>
      by_cases hpre : (a :: s).isPrefixOf (c :: t) = true
      · rw [pySplitFuel, if_pos hpre] at hp
        rcases List.mem_cons.mp hp with hp | hp
        · subst hp
          exact piece_no_substr (l := c :: t) hinv
        · refine ih (t.drop s.length) [] ?_ (by intro i hi; simp at hi) p hp
          simp only [List.length_drop]
          simp only [List.length_cons] at hlen
          omega
      · rw [pySplitFuel, if_neg hpre] at hp
        refine ih t (acc ++ [c]) ?_ ?_ p hp
        · simp only [List.length_cons] at hlen
          omega
        · intro i hi
          rcases Nat.lt_or_ge i acc.length with hil | hil
          · rw [List.drop_append_of_le_length (by omega), List.append_assoc,
              List.singleton_append]
            exact hinv i hil
          · have hieq : i = acc.length := by
              simp only [List.length_append, List.length_singleton] at hi
              omega
            subst hieq
            rw [List.drop_left, List.singleton_append]
            exact Bool.eq_false_iff.mpr hpre

theorem b64Char_props :
    ∀ v, v < 64 →
      charToB64 (b64ValToChar v) = some v ∧ isB64OrPad (b64ValToChar v) = true ∧
      pyIsSpace (b64ValToChar v) = false ∧ (b64ValToChar v = '=') = False := by
  decide

theorem mem_b64encode :
    ∀ {bs : List Nat}, (∀ b ∈ bs, b < 256) →
      ∀ c ∈ b64encodeBytes bs, isB64OrPad c = true ∧ pyIsSpace c = false := by
  intro bs
  induction bs using b64encodeBytes.induct with
  | case1 => intro _ c hc; simp [b64encodeBytes] at hc
  | case2 b0 =>
    intro hb c hc
    have h0 : b0 < 256 := hb b0 (by simp)
    simp only [b64encodeBytes, List.mem_cons, List.not_mem_nil, or_false] at hc
    rcases hc with rfl | rfl | rfl | rfl
    · exact ⟨(b64Char_props _ (by omega)).2.1, (b64Char_props _ (by omega)).2.2.1⟩
    · exact ⟨(b64Char_props _ (by omega)).2.1, (b64Char_props _ (by omega)).2.2.1⟩
    · exact ⟨by decide, by decide⟩
    · exact ⟨by decide, by decide⟩
  | case3 b0 b1 =>
    intro hb c hc
    have h0 : b0 < 256 := hb b0 (by simp)
    have h1 : b1 < 256 := hb b1 (by simp)
    simp only [b64encodeBytes, List.mem_cons, List.not_mem_nil, or_false] at hc
    rcases hc with rfl | rfl | rfl | rfl
    · exact ⟨(b64Char_props _ (by omega)).2.1, (b64Char_props _ (by omega)).2.2.1⟩
    · exact ⟨(b64Char_props _ (by omega)).2.1, (b64Char_props _ (by omega)).2.2.1⟩
    · exact ⟨(b64Char_props _ (by omega)).2.1, (b64Char_props _ (by omega)).2.2.1⟩
    · exact ⟨by decide, by decide⟩
  | case4 b0 b1 b2 rest ih =>
    intro hb c hc
    have h0 : b0 < 256 := hb b0 (by simp)
    have h1 : b1 < 256 := hb b1 (by simp)
    have h2 : b2 < 256 := hb b2 (by simp)
    simp only [b64encodeBytes, List.mem_cons] at hc
    rcases hc with rfl | rfl | rfl | rfl | hc
    · exact ⟨(b64Char_props _ (by omega)).2.1, (b64Char_props _ (by omega)).2.2.1⟩
    · exact ⟨(b64Char_props _ (by omega)).2.1, (b64Char_props _ (by omega)).2.2.1⟩
    · exact ⟨(b64Char_props _ (by omega)).2.1, (b64Char_props _ (by omega)).2.2.1⟩
    · exact ⟨(b64Char_props _ (by omega)).2.1, (b64Char_props _ (by omega)).2.2.1⟩
    · exact ih (fun b hbm => hb b (by simp [hbm])) c hc

theorem filter_b64encode {bs : List Nat} (hb : ∀ b ∈ bs, b < 256) :
    (b64encodeBytes bs).filter isB64OrPad = b64encodeBytes bs :=
  List.filter_eq_self.mpr (fun a ha => (mem_b64encode hb a ha).1)

theorem removeWs_b64encode {bs : List Nat} (hb : ∀ b ∈ bs, b < 256) :
    removeWhitespace (b64encodeBytes bs) = b64encodeBytes bs :=
  List.filter_eq_self.mpr (fun a ha => by simp [(mem_b64encode hb a ha).2])

theorem b64decodeCore_encode :
    ∀ {bs : List Nat}, (∀ b ∈ bs, b < 256) →
      b64decodeCore (b64encodeBytes bs) = some bs := by
  intro bs
  induction bs using b64encodeBytes.induct with
  | case1 => intro _; rfl
  | case2 b0 =>
    intro hb
    have h0 : b0 < 256 := hb b0 (by simp)
    have e0 := (b64Char_props (b0 / 4) (by omega)).1
    have e1 := (b64Char_props (b0 % 4 * 16) (by omega)).1
    simp only [b64encodeBytes, b64decodeCore, e0, e1]
    simp
    all_goals omega
  | case3 b0 b1 =>
    intro hb
    have h0 : b0 < 256 := hb b0 (by simp)
    have h1 : b1 < 256 := hb b1 (by simp)
    have e0 := (b64Char_props (b0 / 4) (by omega)).1
    have e1 := (b64Char_props (b0 % 4 * 16 + b1 / 16) (by omega)).1
    have e2 := (b64Char_props (b1 % 16 * 4) (by omega)).1
    have ne2 := (b64Char_props (b1 % 16 * 4) (by omega)).2.2.2
    simp only [b64encodeBytes, b64decodeCore, e0, e1, e2, ne2]
    simp
    all_goals omega
  | case4 b0 b1 b2 rest ih =>
    intro hb
    have h0 : b0 < 256 := hb b0 (by simp)
    have h1 : b1 < 256 := hb b1 (by simp)
    have h2 : b2 < 256 := hb b2 (by simp)
    have e0 := (b64Char_props (b0 / 4) (by omega)).1
    have e1 := (b64Char_props (b0 % 4 * 16 + b1 / 16) (by omega)).1
    have e2 := (b64Char_props (b1 % 16 * 4 + b2 / 64) (by omega)).1
    have e3 := (b64Char_props (b2 % 64) (by omega)).1
    have ne2 := (b64Char_props (b1 % 16 * 4 + b2 / 64) (by omega)).2.2.2
    have ne3 := (b64Char_props (b2 % 64) (by omega)).2.2.2
    have hrec := ih (fun b hbm => hb b (by simp [hbm]))
    simp only [b64encodeBytes, b64decodeCore, e0, e1, e2, e3, ne2, ne3, hrec]
    simp
    all_goals omega

theorem b64_roundtrip {bs : List Nat} (hb : ∀ b ∈ bs, b < 256) :
    b64decode (b64encodeBytes bs) = some bs := by
  unfold b64decode
  rw [filter_b64encode hb, b64decodeCore_encode hb]

theorem utf8EncodeChar_lt (c : Char) : ∀ b ∈ utf8EncodeChar c, b < 256 := by
  have hc : c.toNat < 1114112 := by
    rcases c.valid with h | ⟨h1, h2⟩
    · exact Nat.lt_trans h (by norm_num)
    · exact h2
  intro b hb
  unfold utf8EncodeChar at hb
  split at hb
  · simp only [List.mem_singleton] at hb
    omega
  · split at hb
    · simp only [List.mem_cons, List.not_mem_nil, or_false] at hb
      rcases hb with rfl | rfl <;> omega
    · split at hb
      · simp only [List.mem_cons, List.not_mem_nil, or_false] at hb
        rcases hb with rfl | rfl | rfl <;> omega
      · simp only [List.mem_cons, List.not_mem_nil, or_false] at hb
        rcases hb with rfl | rfl | rfl | rfl <;> omega

theorem utf8Bytes_lt (s : String) : ∀ b ∈ utf8Bytes s, b < 256 := by
  intro b hbm
  unfold utf8Bytes utf8BytesL at hbm
  rw [List.mem_flatten] at hbm
  obtain ⟨l, hl, hbl⟩ := hbm
  rw [List.mem_map] at hl
  obtain ⟨c, -, rfl⟩ := hl
  exact utf8EncodeChar_lt c b hbl

theorem dropWhile_pyStrip (l : List Char) :
    (pyStrip l).dropWhile pyIsSpace = pyStrip l := by
  unfold pyStrip
  rcases heq : (l.dropWhile pyIsSpace).rdropWhile pyIsSpace with _ | ⟨y, ys⟩
  · simp
  · have hpre : (l.dropWhile pyIsSpace).rdropWhile pyIsSpace <+:
        l.dropWhile pyIsSpace := List.rdropWhile_prefix _ _
    rw [heq] at hpre
    obtain ⟨t, ht⟩ := hpre
    have hne : l.dropWhile pyIsSpace ≠ [] := by
      rw [← ht]; simp
    have hhead : pyIsSpace ((l.dropWhile pyIsSpace).head hne) = false :=
      List.head_dropWhile_not pyIsSpace l hne
    have hsome : (l.dropWhile pyIsSpace).head? = some y := by
      rw [← ht]; rfl
    rw [List.head?_eq_head hne] at hsome
    rw [Option.some.inj hsome] at hhead
    simp [List.dropWhile_cons, hhead]

theorem pyStrip_idem (l : List Char) : pyStrip (pyStrip l) = pyStrip l := by
  show ((pyStrip l).dropWhile pyIsSpace).rdropWhile pyIsSpace = pyStrip l
  rw [dropWhile_pyStrip]
  unfold pyStrip
  exact List.rdropWhile_idempotent _ _

theorem pyReplaceFuel_space_filter :
    ∀ (fuel : Nat) (l : List Char), l.length ≤ fuel →
      pyReplaceFuel ' ' [] [] fuel l = l.filter (fun c => c != ' ') := by
  intro fuel
  induction fuel with
  | zero =>
    intro l hlen
    have hl : l = [] := List.length_eq_zero.mp (by omega)
    subst hl
    rfl
  | succ fuel ih =>
    intro l hlen
    cases l with
    | nil => rfl
    | cons c t =>
      simp only [List.length_cons] at hlen
      by_cases hc : c = ' '
      · subst hc
        simp [pyReplaceFuel, ih t (by omega), List.filter_cons]
      · have hnp : ([' '] : List Char).isPrefixOf (c :: t) = false := by
          simp [List.isPrefixOf, Ne.symm hc]
        simp [pyReplaceFuel, hnp, ih t (by omega), List.filter_cons, hc]

theorem pyReplace_space_filter (l : List Char) :
    pyReplace [' '] [] l = l.filter (fun c => c != ' ') :=
  pyReplaceFuel_space_filter l.length l le_rfl

theorem foldl_processStep_htmlBearing :
    ∀ (parts : List String) (st : Option String × List (String × List Nat)),
      htmlBearing st.1 = false →
      (∀ part ∈ parts,
        hasSubstr "Content-Type: text/html".data part.data = true →
          htmlBearing (extract_html_from_part part) = false) →
      htmlBearing (parts.foldl processStep st).1 = false := by
  intro parts
  induction parts with
  | nil => intro st h _; simpa using h
  | cons part rest ih =>
    intro st hst hparts
    rw [List.foldl_cons]
    apply ih
    · unfold processStep
      by_cases hc : (hasSubstr "Content-Type: text/html".data part.data
          && st.1.isNone) = true
      · rw [if_pos hc]
        exact hparts part (by simp) (Bool.and_eq_true _ _ ▸ hc).1
      · rw [if_neg hc]
        cases himg : extract_image_from_part part
        · simpa using hst
        · simpa using hst
    · intro q hq hctq
      exact hparts q (by simp [hq]) hctq

theorem fallbackTail_capture {g l2 g2 rem : List Char}
    (h : fallbackTail g l2 = some (g2, rem)) : g2 = g := by
  cases l2 with
  | nil => simp [fallbackTail] at h
  | cons c l3 =>
    simp only [fallbackTail] at h
    split at h
    · split at h
      · simp at h
      · simp only [Option.some.injEq, Prod.mk.injEq] at h
        exact h.1.symm
    · simp at h

theorem fallbackGroupAt_capture {l g rem : List Char}
    (h : fallbackGroupAt l = some (g, rem)) :
    g = "Part".data ∨ g = "NextPart".data := by
  unfold fallbackGroupAt at h
  split at h
  · split at h
    · exact Or.inl (fallbackTail_capture h)
    · split at h
      · exact Or.inr (fallbackTail_capture h)
      · simp at h
  · simp at h

theorem splitFallbackCore_hasMatch :
    ∀ (l acc : List Char), hasFallbackMatch l = true →
      ∃ p ∈ splitFallbackCore l acc, p = "Part".data ∨ p = "NextPart".data := by
  intro l acc
  induction l, acc using splitFallbackCore.induct with
  | case1 acc =>
    intro h
    simp [hasFallbackMatch] at h
  | case2 c t acc g rem hmatch =>
    intro _
    refine ⟨g, ?_, fallbackGroupAt_capture hmatch⟩
    simp only [splitFallbackCore]
    split
    next g2 rem2 heq =>
      rw [hmatch] at heq
      simp only [Option.some.injEq, Prod.mk.injEq] at heq
      simp [heq.1]
    next heq => rw [hmatch] at heq; exact absurd heq (by simp)
  | case3 c t acc hnone ih =>
    intro h
    rw [hasFallbackMatch, hnone] at h
    simp only [Option.isSome_none, Bool.false_or] at h
    obtain ⟨p, hp, hor⟩ := ih h
    refine ⟨p, ?_, hor⟩
    simp only [splitFallbackCore]
    split
    next g2 rem2 heq => rw [hnone] at heq; exact absurd heq (by simp)
    next => exact hp

set_option maxRecDepth 16384

/-! Concrete inputs used by the counterexamples and witnesses. -/

/-- A bare-hash image part in the standard MIME layout: headers (including
the bare Content-Location line), a blank line, then the base64 body. -/
def c2StdPart : String :=
  "Content-Type: image/jpeg\nContent-Transfer-Encoding: base64\nContent-Location: file:///C:/ABCDEF1234567890\n\n/9j/4AAQ\n"

/-- A part whose bare Content-Location line is the last line of the part
text, the only layout the dollar-anchored pattern can match. -/
def c2EndPart : String :=
  "Content-Transfer-Encoding: base64\n\n/9j/4AAQ\nContent-Location: file:///C:/ABCDEF1234567890"

/-- A document with a declared boundary, an html part with no navigation
breadcrumb, and an image part (whose bare Content-Location line ends the
part, so the image is extracted and written). -/
def c3Doc : String :=
  "boundary=\"B\"\n--B\nContent-Type: text/html\n\n<html>x</html>\n--B\nContent-Transfer-Encoding: base64\n\n/9j/4AAQ\nContent-Location: file:///C:/ABCD\n--B--\n"

/-- A paragraph whose page-owner phrase is upper-case beyond the initial
letters, which the source regex does not match. -/
def c5Input : String := "<p>PAGE OWNER: Jane Doe</p>"

/-- A document with a declared boundary and no html part at all. -/
def c6Doc : String := "boundary=\"B\"\n--B\nContent-Type: text/plain\n\nhello\n"

/-- A document with a declared boundary splitting into marker-free parts. -/
def c7Doc : String := "boundary=\"B\"\n--B\nhello\n--B\nworld"

/-- A document with no boundary declaration but one fallback marker. -/
def c10Doc : String := "A\n------=_NextPart_01AB.CD\nB"

/-! The claims. -/

/-- C1, counterexample: decoding the base64 encoding of the UTF-8 text ab in
Base64 mode does not return ab; it returns the single CJK character U+6261,
because the decoder interprets the decoded bytes as UTF-16 (errors ignored)
and that decode never fails, so the UTF-8 fallback is unreachable.  This
refutes the claimed round-trip at the concrete input ab. -/
theorem C1_roundtrip_cex :
    decode_html_content (encode_base64 "ab") "base64" ≠ "ab" ∧
    decode_html_content (encode_base64 "ab") "base64" =
      String.mk [Char.ofNat 25185] := by
  decide

/-- C1, amended: for every text x, decoding the base64 encoding of x in
Base64 mode returns the UTF-16 (errors-ignored, little-endian default)
interpretation of the UTF-8 bytes of x, not x itself: the whitespace strip
is the identity on base64 output and the base64 decode inverts the encode,
after which the bytes are read as UTF-16. -/
theorem C1_base64_mode_is_utf16_view (x : String) :
    decode_html_content (encode_base64 x) "base64" =
      String.mk (utf16DecodeIgnore (utf8Bytes x)) := by
  have hb := utf8Bytes_lt x
  unfold decode_html_content encode_base64
  rw [if_pos rfl]
  have hdata : (String.mk (b64encodeBytes (utf8Bytes x))).data
      = b64encodeBytes (utf8Bytes x) := rfl
  rw [hdata, removeWs_b64encode hb, b64_roundtrip hb]

/-- C2, counterexample: a base64 image part whose bare Content-Location
header sits in the header block (followed by a blank line and a body whose
bytes decode to the JPEG magic) yields no asset at all: the bare-hash
pattern is anchored with a dollar and no MULTILINE flag, so it cannot match
a header line followed by further text.  This refutes the claim that such a
part is recovered under the key ABCDEF1234567890 and saved as a jpg. -/
theorem C2_bare_hash_cex :
    extract_image_from_part c2StdPart = none ∧
    hasSubstr "Content-Transfer-Encoding: base64".data c2StdPart.data = true ∧
    (extract_base64_image c2StdPart "ABCDEF1234567890").map
        (fun r => r.2.take 3) = some [255, 216, 255] := by
  decide

/-- C2, amended: the bare-hash pattern only matches when the hex string ends
the part text (a dollar anchor without MULTILINE): for the part whose last
line is the bare Content-Location form, the hex is recovered as the key, the
decoded bytes begin with the JPEG magic, and the saved filename is the hex
with the jpg extension. -/
theorem C2_bare_hash_end_of_part :
    (extract_image_from_part c2EndPart).map
        (fun r => (r.1, determine_image_filename r.1 r.2, r.2.take 3)) =
      some ("ABCDEF1234567890", "ABCDEF1234567890.jpg", [255, 216, 255]) := by
  decide

/-- C3: whenever extraction succeeds but no navigation breadcrumb is found
in the resulting html, the conversion fails with the user-actionable
navigation error, no html file and no metadata entry are written, and the
image files already written during extraction are exactly the ones reported
(not rolled back). -/
theorem C3_navigation_missing_behaviour (text : String)
    (h1 : (extract_html_and_images text).success = true)
    (h2 : extract_navigation_from_html
      (extract_html_and_images text).result = none) :
    upload_file text =
      ⟨false, some navigationErrorMessage,
        (extract_html_and_images text).filesWritten, none, none⟩ := by
  unfold upload_file
  simp only [h1, h2]
  simp

/-- C3 witness: a concrete document that extracts successfully, has an
image file written, and carries no breadcrumb; the conversion fails and the
written image file remains reported. -/
theorem C3_navigation_missing_witness :
    ((extract_html_and_images c3Doc).success = true ∧
      extract_navigation_from_html (extract_html_and_images c3Doc).result
        = none ∧
      (extract_html_and_images c3Doc).filesWritten =
        [("ABCD.jpg",
          [255, 216, 255, 224, 0, 16, 10, 137, 237, 122, 123, 75, 161, 198,
           173, 138, 137, 223, 138, 87, 191, 255, 240, 191, 0, 16, 131])]) ∧
    upload_file c3Doc =
      ⟨false, some navigationErrorMessage,
        (extract_html_and_images c3Doc).filesWritten, none, none⟩ :=
  ⟨⟨by decide, by decide, by decide⟩,
    C3_navigation_missing_behaviour c3Doc (by decide) (by decide)⟩

/-- C4, counterexample: the parser does not enforce non-emptiness of
segments: the breadcrumb with a doubled separator parses to a list
containing an empty segment, refuting the claimed invariant. -/
theorem C4_nonempty_cex :
    parse_navigation_path "A >> B" = ["A", "", "B"] ∧
    "" ∈ parse_navigation_path "A >> B" := by
  decide

/-- C4, amended: every segment produced by the parser is trimmed (stripping
it again changes nothing, so it has no leading or trailing whitespace, and
its interior, casing included, is preserved as split), but segments may be
empty. -/
theorem C4_segments_trimmed (nav : String) :
    ∀ seg ∈ parse_navigation_path nav, String.mk (pyStrip seg.data) = seg := by
  intro seg hseg
  unfold parse_navigation_path at hseg
  simp only [List.mem_map] at hseg
  obtain ⟨l, hl, rfl⟩ := hseg
  obtain ⟨chunk, -, rfl⟩ := hl
  show String.mk (pyStrip (pyStrip chunk)) = String.mk (pyStrip chunk)
  rw [pyStrip_idem]

/-- C4 witness: a concrete segment of a concrete breadcrumb is trimmed. -/
theorem C4_segments_trimmed_witness :
    ("A" ∈ parse_navigation_path " A > B ") ∧
      String.mk (pyStrip "A".data) = "A" :=
  ⟨by decide, C4_segments_trimmed " A > B " "A" (by decide)⟩

/-- C5, counterexample: the match is not case-insensitive: a paragraph whose
page-owner phrase is upper-case beyond the initial letters survives the
sanitizer unchanged, refuting the claim that it is absent from the
output. -/
theorem C5_case_cex :
    remove_confluence_metadata c5Input = c5Input ∧
    hasSubstr "<p>PAGE OWNER".data (remove_confluence_metadata c5Input).data
      = true := by
  decide

/-- C5, amended: the sanitizer removes the span from a literal paragraph
open tag (without attributes) to the next close tag whose text matches the
owner pattern (initial letters of each word case-insensitive, rest
lowercase; the alternation also accepts the Oner misspelling) or the
analogous contact pattern; in particular the Page Owner paragraph of
scenario D is removed, a contact paragraph is removed together with any text
back to the leftmost earlier paragraph open tag, and the Oner artifact is
removed too. -/
theorem C5_owner_contact_removed :
    remove_confluence_metadata "<p>Page Owner: Jane Doe</p>" = "" ∧
    remove_confluence_metadata "<p>A</p><p>Page contact: X</p><p>B</p>"
      = "<p>B</p>" ∧
    remove_confluence_metadata "<p>Page Oner: typo</p>" = "" := by
  decide

/-- C6: when no MIME part both carries the text/html content type and
decodes to a body containing the html tag (case-insensitively), the
conversion fails with the extraction error and nothing is written: no image
files, no html file, no metadata entry. -/
theorem C6_no_html_nothing_written (text : String)
    (h : ∀ part ∈ split_mime_parts text,
      hasSubstr "Content-Type: text/html".data part.data = true →
        htmlBearing (extract_html_from_part part) = false) :
    extract_html_and_images text =
      ⟨false, "Could not extract valid HTML content", 0, []⟩ ∧
    upload_file text =
      ⟨false, some "Could not extract valid HTML content", [], none, none⟩ := by
  have hb : htmlBearing (processParts (split_mime_parts text)).1 = false :=
    foldl_processStep_htmlBearing _ _ rfl h
  have hex : extract_html_and_images text =
      ⟨false, "Could not extract valid HTML content", 0, []⟩ := by
    unfold extract_html_and_images
    rcases heq : processParts (split_mime_parts text) with ⟨o, imgs⟩
    rw [heq] at hb
    cases o with
    | none => rfl
    | some s =>
      simp only [htmlBearing] at hb
      simp [hb]
  refine ⟨hex, ?_⟩
  unfold upload_file
  rw [hex]
  rfl

/-- C6 witness: a concrete document with no html-typed part fails and
writes nothing. -/
theorem C6_no_html_witness :
    (∀ part ∈ split_mime_parts c6Doc,
      hasSubstr "Content-Type: text/html".data part.data = true →
        htmlBearing (extract_html_from_part part) = false) ∧
    upload_file c6Doc =
      ⟨false, some "Could not extract valid HTML content", [], none, none⟩ :=
  ⟨by decide, (C6_no_html_nothing_written c6Doc (by decide)).2⟩

/-- C7: when the text declares a boundary token, the splitter splits on the
literal two-dashes-plus-token marker and no returned part contains that
marker as a substring (in particular not as leading marker text); the Lean
model is total, reflecting that this stage raises no exception. -/
theorem C7_no_marker_in_parts (text T : String)
    (h : findBoundary text.data = some T.data) :
    ∀ p ∈ split_mime_parts text,
      hasSubstr ('-' :: '-' :: T.data) p.data = false := by
  intro p hp
  unfold split_mime_parts at hp
  rw [h] at hp
  simp only [List.mem_map] at hp
  obtain ⟨q, hq, rfl⟩ := hp
  exact pySplitFuel_pieces '-' ('-' :: T.data) text.data.length text.data []
    le_rfl (by intro i hi; simp at hi) q hq

/-- C7 witness: a concrete document with a declared boundary splits into
parts free of the marker. -/
theorem C7_no_marker_witness :
    (findBoundary c7Doc.data = some "B".data) ∧
    ∀ p ∈ split_mime_parts c7Doc,
      hasSubstr ('-' :: '-' :: "B".data) p.data = false :=
  ⟨by decide, C7_no_marker_in_parts c7Doc "B" (by decide)⟩

/-- C8: the saved filename follows the spec rule exactly: a key carrying a
path separator (slash or backslash, the source's test) keeps its final
slash-delimited path component verbatim (the platform's basename); any
other key gets an extension sniffed from the magic bytes in the spec's
order, defaulting to png. -/
theorem C8_filename_rule (key : String) (data : List Nat) :
    determine_image_filename key data = spec_image_filename key data := rfl

/-- C9: the derived filename removes all space characters from each
segment, joins the segments with underscores and appends the html
extension; the derivation is a pure function, so deriving twice from the
same breadcrumb yields the same filename. -/
theorem C9_derive_filename (parts : List String) (breadcrumb : String) :
    generate_html_filename parts = spec_derive_filename parts ∧
    generate_html_filename (parse_navigation_path breadcrumb) =
      generate_html_filename (parse_navigation_path breadcrumb) := by
  constructor
  · unfold generate_html_filename spec_derive_filename
    have hmap : parts.map (fun part => String.mk (pyReplace [' '] [] part.data))
        = parts.map (fun p => String.mk (p.data.filter (fun c => c != ' '))) :=
      List.map_congr_left (fun a _ => by rw [pyReplace_space_filter])
    rw [hmap]
  · rfl

/-- C10: when no boundary is declared and the fallback pattern matches at
least once, the splitter's output contains the captured literal Part or
NextPart as an element (interleaved with the chunks, an artifact of
re.split with a capture group), so the output is not only the text chunks
between markers. -/
theorem C10_capture_leaks_into_parts (text : String)
    (h1 : findBoundary text.data = none)
    (h2 : hasFallbackMatch text.data = true) :
    ∃ p ∈ split_mime_parts text, p = "Part" ∨ p = "NextPart" := by
  unfold split_mime_parts
  rw [h1]
  obtain ⟨q, hq, hor⟩ := splitFallbackCore_hasMatch text.data [] h2
  refine ⟨String.mk q, List.mem_map_of_mem _ hq, ?_⟩
  rcases hor with rfl | rfl
  · exact Or.inl rfl
  · exact Or.inr rfl

/-- C10 witness: a concrete document with no declared boundary and one
fallback marker yields a part equal to the captured literal. -/
theorem C10_capture_witness :
    (findBoundary c10Doc.data = none ∧ hasFallbackMatch c10Doc.data = true) ∧
    ∃ p ∈ split_mime_parts c10Doc, p = "Part" ∨ p = "NextPart" :=
  ⟨⟨by decide, by decide⟩,
    C10_capture_leaks_into_parts c10Doc (by decide) (by decide)⟩

end WikiPage
